import Mathlib

/-!
Verification of the Arabic PDF → Word converter scripts
(`src/streamlit_app.py` and `src/streamlit_app.py.py`).

Both scripts are single-file Streamlit apps.  We shallowly embed the parts
the claims are about:

* the sidebar page-range validation (`start_page > end_page` → error + stop);
* the per-page range filter `start_page <= page_num+1 <= end_page`;
* the per-file processing loop with its `try/except` (append to
  `output_files` on success, show an error and `continue` on failure);
* the text-extraction path of `streamlit_app.py` (blocks → lines → spans,
  concatenation, `strip()`, right-to-left flag for U+0600–U+06FF);
* the scanned-document heuristics of the two revisions;
* the download section (single `.docx` vs ZIP of all outputs);
* the closed `fitz` handle in `streamlit_app.py.py`.

Python strings are modelled as `List Char`; `str.strip()` and
`pathlib.Path(...).stem` are embedded explicitly.
-/

set_option autoImplicit false

namespace ArabicPdf

/-- Python strings, as lists of Unicode code points. -/
abbrev Str := List Char

/-- The characters Python's `str.isspace()` (hence the default `str.strip()`)
treats as whitespace. -/
def pyIsSpace (c : Char) : Bool :=
  let n := c.toNat
  decide (n = 0x20 ∨ (0x9 ≤ n ∧ n ≤ 0xd) ∨ (0x1c ≤ n ∧ n ≤ 0x1f) ∨ n = 0x85 ∨
    n = 0xa0 ∨ n = 0x1680 ∨ (0x2000 ≤ n ∧ n ≤ 0x200a) ∨ n = 0x2028 ∨
    n = 0x2029 ∨ n = 0x202f ∨ n = 0x205f ∨ n = 0x3000)

/-- Python `s.strip()`: drop whitespace from both ends. -/
def pyStrip (s : Str) : Str :=
  ((s.dropWhile pyIsSpace).reverse.dropWhile pyIsSpace).reverse

/-- Python `pathlib.Path(name).stem`: the name without its last suffix.
`pathlib` takes the suffix to start at the last dot, provided that dot is
neither the first nor past the last character of the name. -/
def pyStem (name : Str) : Str :=
  if ('.' : Char) ∈ name then
    let i := name.length - 1 - List.indexOf '.' name.reverse
    if 0 < i ∧ i < name.length - 1 then name.take i else name
  else name

/-- One span of a text line, as returned by `page.get_text("dict")`. -/
structure Span where
  text : Str
deriving DecidableEq

/-- One line of a text block: a list of spans. -/
structure Line where
  spans : List Span
deriving DecidableEq

/-- One block of `page.get_text("dict")["blocks"]`.  `lines = none` models a
block without a `"lines"` key (an image block). -/
structure Block where
  lines : Option (List Line)
deriving DecidableEq

/-- One PDF page: its `get_text("dict")` blocks and its plain `get_text()`
result. -/
structure Page where
  blocks : List Block
  rawText : Str
deriving DecidableEq

/-- A PDF document as `fitz` exposes it. -/
structure PDF where
  pages : List Page
deriving DecidableEq

/-- An uploaded file: its name and its contents. -/
structure UploadedFile where
  name : Str
  pdf : PDF
deriving DecidableEq

/-! ### Text path of `streamlit_app.py` (lines 95–106) -/

/-- A paragraph added to the Word document: its text and whether the
`right_to_left` paragraph property was set. -/
structure Para where
  text : Str
  rtl : Bool
deriving DecidableEq

/-- The Arabic-character test of line 105:
`any("؀" <= c <= "ۿ" for c in para_text)`. -/
def hasArabicRange (t : Str) : Bool :=
  t.any fun c => decide ('؀' ≤ c ∧ c ≤ 'ۿ')

/-- The inner span loop of lines 100–101: `para_text += span["text"]`. -/
def spanFold (s : Str) (sp : Span) : Str := s ++ sp.text

/-- The line loop of lines 99–101. -/
def lineFold (s : Str) (ln : Line) : Str := ln.spans.foldl spanFold s

/-- The body of the block loop of lines 96–106: skip blocks without a
`"lines"` key, build `para_text`, strip it, and if non-empty add a paragraph
whose `right_to_left` flag is the Arabic-range test. -/
def emitBlock (acc : List Para) (b : Block) : List Para :=
  match b.lines with
  | none => acc
  | some ls =>
    let t := pyStrip (ls.foldl lineFold [])
    if t = [] then acc else acc ++ [⟨t, hasArabicRange t⟩]

/-- The paragraphs the text path of `streamlit_app.py` adds to the Word
document for one page, in order. -/
def pageParasA (p : Page) : List Para :=
  p.blocks.foldl emitBlock []

/-- Declarative form of one block's paragraph text, following the claim:
the whitespace-stripped concatenation, in order, of the span texts of the
block; `none` when the block has no `"lines"` key or strips to empty. -/
def blockParaSpec (b : Block) : Option Str :=
  match b.lines with
  | none => none
  | some ls =>
    let t := pyStrip ((ls.map fun ln => (ln.spans.map Span.text).flatten).flatten)
    if t = [] then none else some t

/-- `blockParaSpec` together with the right-to-left flag the code attaches. -/
def blockParaSpecFull (b : Block) : Option Para :=
  (blockParaSpec b).map fun t => ⟨t, hasArabicRange t⟩

/-- The declarative paragraph list for one page. -/
def pageParasSpec (p : Page) : List Str :=
  p.blocks.filterMap blockParaSpec

theorem spanFold_eq (sps : List Span) :
    ∀ s : Str, sps.foldl spanFold s = s ++ (sps.map Span.text).flatten := by
  induction sps with
  | nil => intro s; simp
  | cons sp sps ih =>
    intro s
    simp [List.foldl_cons, spanFold, ih, List.append_assoc]

theorem lineFold_eq (ls : List Line) :
    ∀ s : Str,
      ls.foldl lineFold s =
        s ++ ((ls.map fun ln => (ln.spans.map Span.text).flatten).flatten) := by
  induction ls with
  | nil => intro s; simp
  | cons ln ls ih =>
    intro s
    simp [List.foldl_cons, lineFold, spanFold_eq, ih, List.append_assoc]

theorem emitBlock_eq (acc : List Para) (b : Block) :
    emitBlock acc b = acc ++ (blockParaSpecFull b).toList := by
  cases b with
  | mk lines =>
    cases lines with
    | none => simp [emitBlock, blockParaSpecFull, blockParaSpec]
    | some ls =>
      simp only [emitBlock, blockParaSpecFull, blockParaSpec, lineFold_eq,
        List.nil_append]
      by_cases h :
          pyStrip ((ls.map fun ln => (ln.spans.map Span.text).flatten).flatten) = []
      · simp [h]
      · simp [h]

theorem foldl_emitBlock_eq (bs : List Block) :
    ∀ acc : List Para,
      bs.foldl emitBlock acc = acc ++ bs.filterMap blockParaSpecFull := by
  induction bs with
  | nil => intro acc; simp
  | cons b bs ih =>
    intro acc
    simp only [List.foldl_cons, ih, emitBlock_eq]
    cases hb : blockParaSpecFull b <;>
      simp [List.filterMap_cons, hb, List.append_assoc]

theorem pageParasA_eq (p : Page) :
    pageParasA p = p.blocks.filterMap blockParaSpecFull := by
  simpa using foldl_emitBlock_eq p.blocks []

theorem pageParasA_texts (p : Page) :
    (pageParasA p).map Para.text = pageParasSpec p := by
  rw [pageParasA_eq, pageParasSpec, List.map_filterMap]
  apply List.filterMap_congr
  intro b _
  cases hb : blockParaSpec b <;> simp [blockParaSpecFull, hb]

theorem pageParasA_rtl (p : Page) (para : Para) (h : para ∈ pageParasA p) :
    para.rtl = hasArabicRange para.text := by
  rw [pageParasA_eq] at h
  rcases List.mem_filterMap.mp h with ⟨b, _, hb⟩
  unfold blockParaSpecFull at hb
  cases hs : blockParaSpec b with
  | none => rw [hs] at hb; simp at hb
  | some t =>
    rw [hs] at hb
    rw [Option.map_some'] at hb
    cases hb
    rfl

/-! ### Page-range selection (`streamlit_app.py` lines 77–79,
`streamlit_app.py.py` lines 100–101 and 128–131) -/

/-- The per-page filter: the loop body runs for 0-based `pn` unless
`not convert_all_pages and not (start_page <= page_num+1 <= end_page)`. -/
def pageInRange (convertAll : Bool) (s e pn : Nat) : Bool :=
  convertAll || (decide (s ≤ pn + 1) && decide (pn + 1 ≤ e))

/-- The 1-based pages the per-page loops convert. -/
def convertedPages (convertAll : Bool) (s e total : Nat) : List Nat :=
  ((List.range total).filter (pageInRange convertAll s e)).map (· + 1)

/-- Modelled from the spec: the non-image path delegates conversion to the
imported "PDF-to-DOCX converter" library (`pdf2docx`), whose code is not in
this repository.  Its `Converter.convert(start, end)` selects the 0-based page
indexes `i` with `start ≤ i < end` among the document's pages; we return the
selected pages 1-based for comparison with the per-page filter. -/
def pdf2docxPages (s e total : Nat) : List Nat :=
  ((List.range total).filter fun i => decide (s ≤ i) && decide (i < e)).map (· + 1)

/-! ### The per-file processing loop (`streamlit_app.py` lines 45–116,
`streamlit_app.py.py` lines 62–140) -/

/-- The error message of `streamlit_app.py` line 113. -/
def failMsgA (name e : Str) : Str :=
  "Failed on ".data ++ name ++ ": ".data ++ e

/-- The error message of `streamlit_app.py.py` line 137 (the `**` pairs are
Markdown bold markers around the file name). -/
def failMsgB (name e : Str) : Str :=
  "Failed to convert **".data ++ name ++ "**: ".data ++ e

/-- The `.docx` extension appended to the filename stem. -/
def dotDocx : Str := ".docx".data

/-- `f"{filename_base}.docx"` with `filename_base = Path(uploaded_file.name).stem`:
both the output path inside the temporary directory and the download name. -/
def outputName (f : UploadedFile) : Str := pyStem f.name ++ dotDocx

/-- One iteration of the upload loop: on success append
`(output_docx_path, f"{filename_base}.docx")` to `output_files`; on an
exception show the error message and `continue`. -/
def loopStep (msg : Str → Str → Str) (convert : UploadedFile → Except Str Unit)
    (acc : List (Str × Str) × List Str) (f : UploadedFile) :
    List (Str × Str) × List Str :=
  match convert f with
  | .ok _ => (acc.1 ++ [(outputName f, outputName f)], acc.2)
  | .error e => (acc.1, acc.2 ++ [msg f.name e])

/-- The whole upload loop: the accumulated `output_files` list and the
displayed error messages, in order. -/
def processLoop (msg : Str → Str → Str) (convert : UploadedFile → Except Str Unit)
    (files : List UploadedFile) : List (Str × Str) × List Str :=
  files.foldl (loopStep msg convert) ([], [])

/-! ### Sidebar options, download section and overall app result -/

/-- The sidebar options of both revisions. -/
structure Options where
  convertAll : Bool
  startPage : Nat
  endPage : Nat
  imageFallback : Bool
deriving DecidableEq

/-- What the download section offers. -/
inductive Download where
  | singleDocx (path name : Str)
  | zipAll (entries : List (Str × Str))
deriving DecidableEq

/-- The download section (`streamlit_app.py` lines 122–141,
`streamlit_app.py.py` lines 146–166): a single `.docx` when
`len(output_files) == 1`, otherwise a ZIP holding every entry under its
stored name. -/
def downloadSection (outs : List (Str × Str)) : Download :=
  if outs.length = 1 then .singleDocx outs.headI.1 outs.headI.2 else .zipAll outs

/-- How a run of the script ends: stopped at the sidebar validation
(`st.stop()` at line 23 / 30), stopped because nothing was uploaded, or
finished with outputs, error messages, a download offer, and the
unconditional success message and balloons. -/
inductive AppResult where
  | stoppedValidation (msg : Str)
  | stoppedNoFiles
  | finished (outputs : List (Str × Str)) (errors : List Str)
      (download : Download) (success : Bool) (balloons : Bool)
deriving DecidableEq

/-- The sidebar validation error of line 22 / 29. -/
def rangeErrMsg : Str := "Start page must be ≤ End page".data

/-- The script end to end: sidebar validation first (it renders before the
uploader), then the uploader guard, then the processing loop, the download
section chosen by `len(output_files)`, and the unconditional
`st.success` / `st.balloons`. -/
def runApp (msg : Str → Str → Str) (convert : UploadedFile → Except Str Unit)
    (opts : Options) (files : List UploadedFile) : AppResult :=
  if opts.convertAll = false ∧ opts.endPage < opts.startPage then
    .stoppedValidation rangeErrMsg
  else if files.isEmpty then .stoppedNoFiles
  else
    let r := processLoop msg convert files
    .finished r.1 r.2 (downloadSection r.1) true true

/-! ### Scanned-document detection -/

/-- `streamlit_app.py` line 63: `sum(len(page.get_text()) for page in doc)`. -/
def textCharsA (pdf : PDF) : Nat :=
  (pdf.pages.map fun p => p.rawText.length).sum

/-- `streamlit_app.py` line 64: warn when `text_chars < 100`. -/
def scannedWarnA (pdf : PDF) : Bool :=
  decide (textCharsA pdf < 100)

/-- `streamlit_app.py.py` lines 75–77: the concatenation of every page's
`get_text()`. -/
def concatTextB (pdf : PDF) : Str :=
  (pdf.pages.map Page.rawText).flatten

/-- `streamlit_app.py.py` line 78: warn when `len(text.strip()) < 100`. -/
def scannedWarnB (pdf : PDF) : Bool :=
  decide ((pyStrip (concatTextB pdf)).length < 100)

/-! ### The `fitz` handle in `streamlit_app.py.py` (lines 74–79, 97–116) -/

/-- A `fitz` document handle: its page count and whether it is still open. -/
structure FitzDoc where
  pageCount : Nat
  isOpen : Bool
deriving DecidableEq

/-- The message of the `ValueError` PyMuPDF raises when a closed document is
used. -/
def closedDocMsg : Str := "document closed".data

/-- The message raised when a page index is out of range. -/
def pageRangeMsg : Str := "page not in document".data

/-- `len(doc)` / `doc.page_count`: raises on a closed handle. -/
def docLen (d : FitzDoc) : Except Str Nat :=
  if d.isOpen then .ok d.pageCount else .error closedDocMsg

/-- `doc.load_page(i)`: raises on a closed handle or a bad index. -/
def loadPage (d : FitzDoc) (i : Nat) : Except Str Unit :=
  if d.isOpen then
    if i < d.pageCount then .ok () else .error pageRangeMsg
  else .error closedDocMsg

/-- The scanned-detection paragraph of `streamlit_app.py.py` (lines 74–79):
it opens `doc`, reads the text, computes the heuristic, and crucially calls
`doc.close()`, so the handle left in scope is closed. -/
def scannedDetectB (pdf : PDF) : Bool × FitzDoc :=
  (scannedWarnB pdf, ⟨pdf.pages.length, false⟩)

/-- The image-fallback branch of `streamlit_app.py.py` (lines 97–114) run
against a given handle: `total_pages = len(doc)` (the `'doc' in locals()`
test is true, `doc` was assigned at line 74), then the page loop with the
range filter and `doc.load_page(page_num)`. -/
def imageFallbackB (doc : FitzDoc) (convertAll : Bool) (s e : Nat) :
    Except Str Unit := do
  let total ← docLen doc
  (List.range total).forM fun pn =>
    if pageInRange convertAll s e pn then do
      let _ ← loadPage doc pn
      pure ()
    else pure ()

/-- Per-file processing of `streamlit_app.py.py` with image fallback enabled:
scanned detection (which closes the handle) followed by the image-fallback
branch on that same handle. -/
def processFileBImage (convertAll : Bool) (s e : Nat) (pdf : PDF) :
    Except Str Unit :=
  imageFallbackB (scannedDetectB pdf).2 convertAll s e

/-! ### Demo inputs used by counterexamples and witnesses -/

/-- A span holding an Arabic letter (U+0633) followed by a Latin letter. -/
def demoSpan : Span := ⟨['س', 'a']⟩

/-- A one-block page around `demoSpan`. -/
def demoPage : Page := ⟨[⟨some [⟨[demoSpan]⟩]⟩], ['س', 'a']⟩

/-- A page whose only span is the Arabic Presentation Forms ligature U+FEFB. -/
def demoPresPage : Page := ⟨[⟨some [⟨[⟨['ﻻ']⟩]⟩]⟩], ['ﻻ']⟩

/-- One hundred spaces. -/
def spaces100 : Str := List.replicate 100 ' '

/-- A one-page PDF whose extracted text is one hundred spaces. -/
def demoScannedPdf : PDF := ⟨[⟨[], spaces100⟩]⟩

/-- A concrete uploaded file. -/
def demoFile : UploadedFile := ⟨"doc.pdf".data, ⟨[demoPage]⟩⟩

/-- A concrete error message for witnesses. -/
def demoErr : Str := "boom".data

/-! ### Helper lemmas about the processing loop -/

theorem foldl_loopStep_acc (msg : Str → Str → Str)
    (convert : UploadedFile → Except Str Unit) (files : List UploadedFile) :
    ∀ acc : List (Str × Str) × List Str,
      files.foldl (loopStep msg convert) acc =
        (acc.1 ++ (processLoop msg convert files).1,
         acc.2 ++ (processLoop msg convert files).2) := by
  induction files with
  | nil => intro acc; simp [processLoop]
  | cons f fs ih =>
    intro acc
    simp only [processLoop, List.foldl_cons]
    rw [ih (loopStep msg convert acc f), ih (loopStep msg convert ([], []) f)]
    cases hc : convert f <;> simp [loopStep, hc, List.append_assoc]

theorem processLoop_cons (msg : Str → Str → Str)
    (convert : UploadedFile → Except Str Unit) (f : UploadedFile)
    (fs : List UploadedFile) :
    processLoop msg convert (f :: fs) =
      ((loopStep msg convert ([], []) f).1 ++ (processLoop msg convert fs).1,
       (loopStep msg convert ([], []) f).2 ++ (processLoop msg convert fs).2) := by
  simp only [processLoop, List.foldl_cons]
  exact foldl_loopStep_acc msg convert fs _

theorem processLoop_no_ok (msg : Str → Str → Str)
    (convert : UploadedFile → Except Str Unit) :
    ∀ files : List UploadedFile,
      (∀ f ∈ files, ∃ e, convert f = .error e) →
      (processLoop msg convert files).1 = [] := by
  intro files
  induction files with
  | nil => intro _; rfl
  | cons f fs ih =>
    intro h
    rcases h f (List.mem_cons_self f fs) with ⟨e, he⟩
    rw [processLoop_cons]
    simp only [loopStep, he]
    exact ih fun g hg => h g (List.mem_cons_of_mem f hg)

theorem processLoop_mem_outputs (msg : Str → Str → Str)
    (convert : UploadedFile → Except Str Unit) :
    ∀ (files : List UploadedFile) (o : Str × Str),
      o ∈ (processLoop msg convert files).1 →
      ∃ f ∈ files, o = (outputName f, outputName f) := by
  intro files
  induction files with
  | nil => intro o ho; simp [processLoop] at ho
  | cons f fs ih =>
    intro o ho
    rw [processLoop_cons] at ho
    rcases List.mem_append.mp ho with hl | hr
    · cases hc : convert f with
      | ok u =>
        simp only [loopStep, hc, List.nil_append, List.mem_singleton] at hl
        exact ⟨f, List.mem_cons_self f fs, hl⟩
      | error e =>
        simp only [loopStep, hc] at hl
        exact absurd hl (List.not_mem_nil o)
    · rcases ih o hr with ⟨g, hg, ho⟩
      exact ⟨g, List.mem_cons_of_mem f hg, ho⟩

theorem processLoop_const_error (msg : Str → Str → Str)
    (convert : UploadedFile → Except Str Unit) (err : Str)
    (h : ∀ f : UploadedFile, convert f = .error err) :
    ∀ files : List UploadedFile,
      processLoop msg convert files = ([], files.map fun f => msg f.name err) := by
  intro files
  induction files with
  | nil => rfl
  | cons f fs ih =>
    rw [processLoop_cons, ih]
    simp [loopStep, h f]

theorem pyStrip_length_le (s : Str) : (pyStrip s).length ≤ s.length := by
  unfold pyStrip
  rw [List.length_reverse]
  calc ((s.dropWhile pyIsSpace).reverse.dropWhile pyIsSpace).length
      ≤ (s.dropWhile pyIsSpace).reverse.length :=
        (List.dropWhile_sublist _).length_le
    _ = (s.dropWhile pyIsSpace).length := List.length_reverse _
    _ ≤ s.length := (List.dropWhile_sublist _).length_le

theorem concatTextB_length (pdf : PDF) :
    (concatTextB pdf).length = textCharsA pdf := by
  simp only [concatTextB, textCharsA, List.length_flatten, List.map_map]
  rfl

/-- An empty PDF, used as a witness input. -/
def emptyPdf : PDF := ⟨[]⟩

/-! ### The claims -/

/-- C1: with "Convert all pages" unchecked and a valid range
`start_page ≤ end_page`, the per-page filter used by both revisions converts
exactly the 1-based pages `p` of the document with
`start_page ≤ p ≤ end_page` and skips all others, and this page set is the
one the pdf2docx path selects when `convert` is called with
`start = start_page - 1` and `end = end_page`. -/
theorem claim_C1 (s e total : Nat) (h1 : 1 ≤ s) (_h2 : s ≤ e) :
    (∀ p : Nat, p ∈ convertedPages false s e total ↔
      1 ≤ p ∧ p ≤ total ∧ s ≤ p ∧ p ≤ e) ∧
    convertedPages false s e total = pdf2docxPages (s - 1) e total := by
  constructor
  · intro p
    simp only [convertedPages, List.mem_map, List.mem_filter, List.mem_range,
      pageInRange, Bool.false_or, Bool.and_eq_true, decide_eq_true_eq]
    constructor
    · rintro ⟨i, ⟨hi, hs, he⟩, rfl⟩
      omega
    · rintro ⟨hp1, hpt, hps, hpe⟩
      exact ⟨p - 1, ⟨by omega, by omega, by omega⟩, by omega⟩
  · unfold convertedPages pdf2docxPages
    congr 1
    apply List.filter_congr
    intro i _
    simp only [pageInRange, Bool.false_or]
    refine congrArg₂ (fun a b => a && b) ?_ ?_ <;> rw [decide_eq_decide] <;> omega

/-- Witness for C1 at `start_page = 2`, `end_page = 3`, a 4-page document. -/
theorem claim_C1_witness :
    (2 ∈ convertedPages false 2 3 4 ↔ 1 ≤ 2 ∧ 2 ≤ 4 ∧ 2 ≤ 2 ∧ 2 ≤ 3) ∧
    convertedPages false 2 3 4 = pdf2docxPages 1 3 4 :=
  ⟨(claim_C1 2 3 4 (by decide) (by decide)).1 2,
   (claim_C1 2 3 4 (by decide) (by decide)).2⟩

/-- C2: when the conversion of one uploaded file raises, an error message
naming that file is shown (in both revisions the file name is embedded in the
message), that file contributes no entry to `output_files`, the entries of
the earlier files are unchanged, and the loop continues with the remaining
files; nothing beyond recording the message happens. -/
theorem claim_C2 (convert : UploadedFile → Except Str Unit)
    (pre post : List UploadedFile) (f : UploadedFile) (err : Str)
    (h : convert f = .error err) :
    (∀ msg : Str → Str → Str,
      processLoop msg convert (pre ++ f :: post) =
        ((processLoop msg convert pre).1 ++ (processLoop msg convert post).1,
         (processLoop msg convert pre).2 ++
           msg f.name err :: (processLoop msg convert post).2)) ∧
    (∃ l r, failMsgA f.name err = l ++ f.name ++ r) ∧
    (∃ l r, failMsgB f.name err = l ++ f.name ++ r) := by
  refine ⟨fun msg => ?_,
    ⟨"Failed on ".data, ": ".data ++ err, by simp [failMsgA]⟩,
    ⟨"Failed to convert **".data, "**: ".data ++ err, by simp [failMsgB]⟩⟩
  show (pre ++ f :: post).foldl (loopStep msg convert) ([], []) = _
  rw [List.foldl_append, List.foldl_cons]
  rw [show pre.foldl (loopStep msg convert) ([], []) = processLoop msg convert pre
    from rfl]
  rw [show loopStep msg convert (processLoop msg convert pre) f =
      ((processLoop msg convert pre).1,
       (processLoop msg convert pre).2 ++ [msg f.name err]) by
    simp [loopStep, h]]
  rw [foldl_loopStep_acc]
  simp [List.append_assoc]

/-- Witness for C2: a failing file between no other files. -/
theorem claim_C2_witness :
    processLoop failMsgA (fun _ => Except.error demoErr) ([] ++ demoFile :: []) =
      ((processLoop failMsgA (fun _ => Except.error demoErr) []).1 ++
        (processLoop failMsgA (fun _ => Except.error demoErr) []).1,
       (processLoop failMsgA (fun _ => Except.error demoErr) []).2 ++
        failMsgA demoFile.name demoErr ::
          (processLoop failMsgA (fun _ => Except.error demoErr) []).2) :=
  (claim_C2 (fun _ => Except.error demoErr) [] [] demoFile demoErr rfl).1 failMsgA

/-- C3: with "Convert all pages" unchecked and `start_page > end_page`, the
sidebar shows the validation error and `st.stop()` halts the script before
any uploaded file is saved, converted, or offered for download. -/
theorem claim_C3 (msg : Str → Str → Str) (convert : UploadedFile → Except Str Unit)
    (opts : Options) (files : List UploadedFile)
    (h1 : opts.convertAll = false) (h2 : opts.endPage < opts.startPage) :
    runApp msg convert opts files = .stoppedValidation rangeErrMsg := by
  unfold runApp
  rw [if_pos ⟨h1, h2⟩]

/-- Witness for C3 at `start_page = 5`, `end_page = 2`. -/
theorem claim_C3_witness :
    runApp failMsgA (fun _ => Except.ok ()) ⟨false, 5, 2, false⟩ [demoFile] =
      AppResult.stoppedValidation rangeErrMsg :=
  claim_C3 failMsgA (fun _ => Except.ok ()) ⟨false, 5, 2, false⟩ [demoFile]
    rfl (by decide)

/-- C4 (counterexample): on a block holding the Arabic letter U+0633 followed
by a Latin letter, the text path of `streamlit_app.py` emits the extracted
span text character-for-character unchanged — same code points, same
(logical) order.  No glyph reshaping (which rewrites U+0600-block letters
into presentation forms) and no bidi reordering is applied to the extracted
runs before they are written into the Word document; the claim that the
scripts reshape and bidi-fix the text is therefore false on this input. -/
theorem claim_C4_counterexample :
    pageParasA demoPage = [⟨demoSpan.text, true⟩] ∧ demoSpan.text = ['س', 'a'] := by
  decide

/-- C4 (amended): the scripts apply no reshaping and no bidi transformation
to the extracted text: every emitted paragraph is exactly the
whitespace-stripped concatenation of its block's span texts, and the only
Arabic-specific behaviour is setting the paragraph's `right_to_left` flag
when a character of U+0600–U+06FF is present. -/
theorem claim_C4 (p : Page) :
    (pageParasA p).map Para.text = pageParasSpec p ∧
    ∀ para ∈ pageParasA p, para.rtl = hasArabicRange para.text :=
  ⟨pageParasA_texts p, fun para h => pageParasA_rtl p para h⟩

/-- Witness for C4 at the demo page. -/
theorem claim_C4_witness :
    (pageParasA demoPage).map Para.text = pageParasSpec demoPage ∧
    (⟨['س', 'a'], true⟩ : Para).rtl = hasArabicRange ['س', 'a'] :=
  ⟨(claim_C4 demoPage).1, (claim_C4 demoPage).2 ⟨['س', 'a'], true⟩ (by decide)⟩

/-- C5: in the text path of `streamlit_app.py`, the paragraphs added for a
page are exactly, in order, the whitespace-stripped concatenations of the
span texts of the blocks that have a `"lines"` key and do not strip to
empty; no other transformation of the extracted text is performed
(`blockParaSpec` is that declarative description). -/
theorem claim_C5 (p : Page) :
    (pageParasA p).map Para.text = p.blocks.filterMap blockParaSpec := by
  rw [pageParasA_texts]; rfl

/-- C6: the entries of `output_files` are always named
`<input filename stem>.docx`; when exactly one output exists the download is
that single `.docx` under its stored name, and otherwise one ZIP holding
every produced output under its stored name is offered. -/
theorem claim_C6 (msg : Str → Str → Str) (convert : UploadedFile → Except Str Unit)
    (files : List UploadedFile) (outs : List (Str × Str))
    (houts : outs = (processLoop msg convert files).1) :
    (∀ o ∈ outs, ∃ f ∈ files, o = (outputName f, outputName f) ∧
      outputName f = pyStem f.name ++ dotDocx) ∧
    (∀ o : Str × Str, outs = [o] → downloadSection outs = .singleDocx o.1 o.2) ∧
    (outs.length ≠ 1 → downloadSection outs = .zipAll outs) := by
  refine ⟨?_, ?_, ?_⟩
  · intro o ho
    rcases processLoop_mem_outputs msg convert files o (houts ▸ ho) with ⟨f, hf, he⟩
    exact ⟨f, hf, he, rfl⟩
  · rintro o rfl
    simp [downloadSection]
  · intro hne
    simp [downloadSection, hne]

/-- Witness for C6: one successfully converted file named `doc.pdf`. -/
theorem claim_C6_witness :
    (∃ f ∈ [demoFile],
      ((outputName demoFile, outputName demoFile) : Str × Str) =
        (outputName f, outputName f) ∧
      outputName f = pyStem f.name ++ dotDocx) ∧
    downloadSection [(outputName demoFile, outputName demoFile)] =
      .singleDocx (outputName demoFile) (outputName demoFile) :=
  let h := claim_C6 failMsgA (fun _ => Except.ok ()) [demoFile]
    [(outputName demoFile, outputName demoFile)] rfl
  ⟨h.1 (outputName demoFile, outputName demoFile) (by decide),
   h.2.1 (outputName demoFile, outputName demoFile) rfl⟩

/-- C7 (counterexample): on a PDF whose extracted text is one hundred space
characters, `streamlit_app.py` does not warn (the per-page length sum is
exactly 100) while `streamlit_app.py.py` warns (the stripped concatenation
is empty), so the two scanned-document detections are not equivalent. -/
theorem claim_C7_counterexample :
    scannedWarnA demoScannedPdf = false ∧ scannedWarnB demoScannedPdf = true := by
  decide

/-- C7 (amended): the implication holds in one direction only — whenever
`streamlit_app.py` shows the "appears scanned" warning,
`streamlit_app.py.py` shows it too, since stripping cannot lengthen the
concatenated text. -/
theorem claim_C7 (pdf : PDF) (h : scannedWarnA pdf = true) :
    scannedWarnB pdf = true := by
  rw [scannedWarnA, decide_eq_true_eq] at h
  rw [scannedWarnB, decide_eq_true_eq]
  calc (pyStrip (concatTextB pdf)).length
      ≤ (concatTextB pdf).length := pyStrip_length_le _
    _ = textCharsA pdf := concatTextB_length pdf
    _ < 100 := h

/-- Witness for C7 at the empty PDF, where both revisions warn. -/
theorem claim_C7_witness : scannedWarnB emptyPdf = true :=
  claim_C7 emptyPdf (by decide)

/-- C8: in `streamlit_app.py.py`, scanned detection closes the `fitz`
handle, so with image fallback enabled every file's conversion raises the
`document closed` error, the except-branch records the failure message for
each file, and `output_files` stays empty. -/
theorem claim_C8 (convertAll : Bool) (s e : Nat) (pdf : PDF)
    (files : List UploadedFile) :
    processFileBImage convertAll s e pdf = .error closedDocMsg ∧
    (processLoop failMsgB (fun f => processFileBImage convertAll s e f.pdf)
      files).1 = [] ∧
    (processLoop failMsgB (fun f => processFileBImage convertAll s e f.pdf)
      files).2 = files.map fun f => failMsgB f.name closedDocMsg := by
  have hp := processLoop_const_error failMsgB
    (fun f => processFileBImage convertAll s e f.pdf) closedDocMsg
    (fun g => rfl) files
  exact ⟨rfl, by rw [hp], by rw [hp]⟩

/-- C9: a paragraph of the text path gets the `right_to_left` property iff
its text holds a character in U+0600–U+06FF; text written entirely in, for
example, the Arabic Presentation Forms block (U+FB50 onward) is emitted
without the property. -/
theorem claim_C9 (p : Page) (para : Para) (h : para ∈ pageParasA p) :
    (para.rtl = true ↔ ∃ c ∈ para.text, '؀' ≤ c ∧ c ≤ 'ۿ') ∧
    ((∀ c ∈ para.text, 'ﭐ' ≤ c) → para.rtl = false) := by
  have hr := pageParasA_rtl p para h
  constructor
  · rw [hr, hasArabicRange, List.any_eq_true]
    simp only [decide_eq_true_eq]
  · intro hc
    rw [hr, hasArabicRange, List.any_eq_false]
    intro c hcmem
    simp only [decide_eq_true_eq]
    rintro ⟨_, hle⟩
    exact absurd (le_trans (hc c hcmem) hle) (by decide)

/-- Witness for C9: a paragraph consisting of the presentation-form ligature
U+FEFB is emitted without the right-to-left property. -/
theorem claim_C9_witness :
    ((⟨['ﻻ'], false⟩ : Para).rtl = true ↔
      ∃ c ∈ (['ﻻ'] : Str), '؀' ≤ c ∧ c ≤ 'ۿ') ∧
    (⟨['ﻻ'], false⟩ : Para).rtl = false :=
  let h := claim_C9 demoPresPage ⟨['ﻻ'], false⟩ (by decide)
  ⟨h.1, h.2 (by decide)⟩

/-- C10: when every uploaded file fails to convert, the download section
still takes the multi-file branch — an empty ZIP is offered — and the
success message and balloons are still shown. -/
theorem claim_C10 (msg : Str → Str → Str) (convert : UploadedFile → Except Str Unit)
    (opts : Options) (files : List UploadedFile)
    (hv : ¬(opts.convertAll = false ∧ opts.endPage < opts.startPage))
    (hne : files ≠ [])
    (hfail : ∀ f ∈ files, ∃ e, convert f = .error e) :
    runApp msg convert opts files =
      .finished [] (processLoop msg convert files).2 (.zipAll []) true true := by
  unfold runApp
  rw [if_neg hv]
  rw [if_neg (by simp [List.isEmpty_iff, hne])]
  show AppResult.finished (processLoop msg convert files).1
      (processLoop msg convert files).2
      (downloadSection (processLoop msg convert files).1) true true = _
  rw [processLoop_no_ok msg convert files hfail]
  rfl

/-- Witness for C10: one file that always fails. -/
theorem claim_C10_witness :
    runApp failMsgA (fun _ => Except.error demoErr) ⟨true, 1, 10, false⟩ [demoFile] =
      .finished [] [failMsgA demoFile.name demoErr] (.zipAll []) true true :=
  (claim_C10 failMsgA (fun _ => Except.error demoErr) ⟨true, 1, 10, false⟩
      [demoFile] (by decide) (by decide) (fun f _ => ⟨demoErr, rfl⟩)).trans
    (by decide)

end ArabicPdf
